import Mathlib

/-!
Shallow embedding of the market-statistics workflow of the
Simulateur_Immo repository (files `estimateur_demo.py`,
`estimateur_demo_streamlit.py`, `estimateur_immobilier_fix.py`,
`estimateur_immobilier_streamlit.py`).

Prices and areas are modelled as exact rationals; pandas series become
Lean lists; the pandas `quantile` (linear interpolation, its default),
`mean`, `median`, `min`, `max` are translated literally.
-/

namespace SimImmo

/-- One row of the transaction table, as built by the data sources:
`date_mutation` is kept as its calendar year (the only part the
analysis reads, via `.dt.year`), `valeur_fonciere` and
`surface_reelle_bati` as rationals. -/
structure Row where
  annee : Nat
  valeur : ℚ
  surface : ℚ
  deriving DecidableEq, Repr

/-- `df['prix_m2'] = df['valeur_fonciere'] / df['surface_reelle_bati']`. -/
def prixM2 (r : Row) : ℚ := r.valeur / r.surface

/-- The `prix_m2` series of a table. -/
def prixM2Series (rows : List Row) : List ℚ := rows.map prixM2

/-- Sum of a list of rationals (pandas `.sum()`). -/
def listSum : List ℚ → ℚ
  | [] => 0
  | a :: l => a + listSum l

/-- pandas `.mean()`: sum divided by count. -/
def listMean (l : List ℚ) : ℚ := listSum l / l.length

/-- pandas `.min()` over a series. -/
def listMin : List ℚ → ℚ
  | [] => 0
  | a :: l => l.foldl min a

/-- pandas `.max()` over a series. -/
def listMax : List ℚ → ℚ
  | [] => 0
  | a :: l => l.foldl max a

/-- The series sorted ascending. -/
def sortAsc (l : List ℚ) : List ℚ := l.insertionSort (· ≤ ·)

/-- pandas `.median()`: middle element of the sorted series for odd
length, average of the two middle elements for even length. -/
def listMedian (l : List ℚ) : ℚ :=
  let s := sortAsc l
  let n := s.length
  if n % 2 = 1 then s.getD (n / 2) 0
  else (s.getD (n / 2 - 1) 0 + s.getD (n / 2) 0) / 2

/-- pandas `Series.quantile q` with its default linear interpolation:
position `q * (n - 1)` in the sorted series, interpolating between the
neighbouring order statistics. -/
def quantile (l : List ℚ) (q : ℚ) : ℚ :=
  let s := sortAsc l
  let pos : ℚ := q * ((s.length : ℚ) - 1)
  let i : Nat := pos.floor.toNat
  let frac : ℚ := pos - i
  s.getD i 0 + frac * (s.getD (i + 1) (s.getD i 0) - s.getD i 0)

/-- Outlier removal of `estimateur_immobilier_streamlit.py` lines
77-79, on a price series: keep the values lying between the 5th and
95th percentile of the full series. There is no fallback branch: the
trim is applied unconditionally. -/
def trimmed (l : List ℚ) : List ℚ :=
  let q1 := quantile l (1/20)
  let q99 := quantile l (19/20)
  l.filter (fun x => decide (q1 ≤ x) && decide (x ≤ q99))

/-- The same trim `df_clean = df[(df['prix_m2'] >= q1) & (df['prix_m2'] <= q99)]`
seen at the row level: the rows whose `prix_m2` lies in the percentile
band of the full `prix_m2` series. -/
def trimmedRows (rows : List Row) : List Row :=
  let q1 := quantile (prixM2Series rows) (1/20)
  let q99 := quantile (prixM2Series rows) (19/20)
  rows.filter (fun r => decide (q1 ≤ prixM2 r) && decide (prixM2 r ≤ q99))

/-- The distinct calendar years present in a table
(`df['date_mutation'].dt.year`, as grouping keys). -/
def distinctYears (rows : List Row) : List Nat := (rows.map Row.annee).dedup

/-- `df.groupby('annee')['prix_m2'].mean().sort_index()`: one entry per
distinct year, carrying the mean `prix_m2` of that year's rows, ordered
ascending by year. -/
def evolution (rows : List Row) : List (Nat × ℚ) :=
  ((distinctYears rows).insertionSort (· ≤ ·)).map
    (fun y => (y, listMean (prixM2Series (rows.filter (fun r => r.annee == y)))))

/-- `estimateur_demo.py` lines 56-95: the numeric content of
`analyser_marche` — `0.0` when the frame is empty (line 58), otherwise
the global mean of `prix_m2` (lines 61-64, returned line 95). -/
def analyserMarcheDemo (rows : List Row) : ℚ :=
  if rows = [] then 0 else listMean (prixM2Series rows)

/-- The `stats` dict of `estimateur_immobilier_streamlit.py` lines
89-95, before the `int` truncations applied for display. -/
structure MarketStats where
  min : ℚ
  max : ℚ
  moyen : ℚ
  mediane : ℚ
  nbTransactions : Nat
  deriving DecidableEq, Repr

/-- `estimateur_immobilier_streamlit.py` lines 69-95: the numeric
content of `analyser_marche` — the pair `(prix_moyen_global, stats)`
(the figure component is rendering, not data). An empty frame returns
`(0.0, None, None)` (line 71); otherwise the statistics are computed
over the unconditionally trimmed rows `df_clean`. -/
def analyserMarcheStreamlit (rows : List Row) : ℚ × Option MarketStats :=
  if rows = [] then (0, none)
  else
    let clean := prixM2Series (trimmedRows rows)
    (listMean clean,
      some ⟨listMin clean, listMax clean, listMean clean, listMedian clean, clean.length⟩)

/-- `estimateur_immobilier_streamlit.py` line 106: the trend line is
fitted only under the guard `len(evolution) > 1`, where `evolution` is
computed over `df_clean`. -/
def streamlitTrendFitted (rows : List Row) : Bool :=
  decide (1 < (evolution (trimmedRows rows)).length)

/-- `estimateur_demo.py` lines 86-88: `np.polyfit(evolution.index,
evolution.values, 1)` is executed unconditionally — there is no guard
on the number of distinct years, so a trend is always fitted. -/
def demoTrendFitted (_rows : List Row) : Bool := true

/-- The `Standing` enum. -/
inductive Standing
  | aRenover
  | standard
  | hautDeGamme
  deriving DecidableEq, Repr

/-- The `ajustements` dict mapping each standing to its fixed
coefficient (0.85, 1.0, 1.20). -/
def ajustement : Standing → ℚ
  | .aRenover => 85 / 100
  | .standard => 1
  | .hautDeGamme => 120 / 100

/-- `prix_ajuste_m2 = prix_moyen_m2 * coefficient`. -/
def prixAjusteM2 (prixMoyenM2 : ℚ) (s : Standing) : ℚ :=
  prixMoyenM2 * ajustement s

/-- `estimation_finale = prix_ajuste_m2 * surface_habitable`. -/
def estimationFinale (prixMoyenM2 : ℚ) (s : Standing) (surface : ℚ) : ℚ :=
  prixAjusteM2 prixMoyenM2 s * surface

/-- `estimation_finale * 0.95`, the reported low bound. -/
def fourchetteBasse (e : ℚ) : ℚ := e * (95 / 100)

/-- `estimation_finale * 1.05`, the reported high bound. -/
def fourchetteHaute (e : ℚ) : ℚ := e * (105 / 100)

/-- A raw CSV row as fetched by `recuperer_transactions_dvf`, holding
the fields the filtering reads; a field that `pd.to_numeric(...,
errors='coerce')` fails to parse is `none` (NaN, dropped by `dropna`). -/
structure RawRow where
  natureMutation : String
  typeLocal : String
  anneeMutation : Nat
  valeurFonciere : Option ℚ
  surfaceReelleBati : Option ℚ
  deriving DecidableEq, Repr

/-- Outcome of the `requests.get` call inside the `try` block of
`recuperer_transactions_dvf`: a parsed body with status 200, a
non-success status code, or an exception with its message. -/
inductive FetchOutcome
  | success (rows : List RawRow)
  | httpError (code : Nat)
  | failure (msg : String)
  deriving DecidableEq, Repr

/-- Column selection, numeric coercion, `dropna` and the
`surface_reelle_bati > 0` filter (lines 49-56) applied to one raw row. -/
def parseRow (r : RawRow) : Option Row :=
  match r.valeurFonciere, r.surfaceReelleBati with
  | some v, some s => if 0 < s then some ⟨r.anneeMutation, v, s⟩ else none
  | _, _ => none

/-- `estimateur_immobilier_streamlit.py` lines 27-66,
`recuperer_transactions_dvf`: returns the usable table together with
`None`, or an empty table together with a human-readable reason. The
`try`/`except` catches every exception, so no error escapes the
function. -/
def recupererTransactionsDvf (o : FetchOutcome) : List Row × Option String :=
  match o with
  | .success raw =>
    let logements := raw.filter (fun r =>
      r.natureMutation == "Vente" &&
        (r.typeLocal == "Maison" || r.typeLocal == "Appartement"))
    if logements.isEmpty then
      ([], some "Aucune transaction trouvée pour cette commune")
    else
      let final := logements.filterMap parseRow
      if final.isEmpty then
        ([], some "Données incomplètes pour cette commune")
      else (final, none)
  | .httpError code => ([], some ("API non disponible (code " ++ toString code ++ ")"))
  | .failure msg => ([], some ("Erreur de connexion : " ++ msg))

/-- What the streamlit workflow produces for one run: an error message
shown with `st.error` and no valuation, or an estimated value. -/
inductive WorkflowResult
  | errorReport (msg : String)
  | valuation (v : ℚ)
  deriving DecidableEq, Repr

/-- `estimateur_immobilier_streamlit.py` lines 174-202 of `main`: fetch
the data, short-circuit with the fetch reason when the table is empty
(lines 176-184), short-circuit when the analysis returns 0 (lines
189-191), otherwise apply the standing coefficient and the surface. -/
def mainStreamlit (o : FetchOutcome) (surface : ℚ) (s : Standing) : WorkflowResult :=
  let res := recupererTransactionsDvf o
  if res.1.isEmpty then .errorReport (res.2.getD "")
  else
    let prixMoyenM2 := (analyserMarcheStreamlit res.1).1
    if prixMoyenM2 = 0 then
      .errorReport "Impossible d'analyser les données de cette commune"
    else .valuation (estimationFinale prixMoyenM2 s surface)

/-- Abstract numpy random source: each draw is a function of the seed
and the index of the draw within its array. `randint seed lo hi i` is
the i-th draw of the `np.random.randint(lo, hi)` loop after
`np.random.seed(seed)`; `normal seed mu sigma i` and
`uniform seed lo hi i` index into the arrays returned by
`np.random.normal(mu, sigma, n)` and `np.random.uniform(lo, hi, n)`
in the fixed call sequence of `generer_donnees_demo`. -/
structure NumpyRandom where
  randint : Nat → Nat → Nat → Nat → Nat
  normal : Nat → ℚ → ℚ → Nat → ℚ
  uniform : Nat → ℚ → ℚ → Nat → ℚ

/-- Calendar year of `datetime(2019, 1, 1) + timedelta(days=d)` for
`d < 1826` (2020 is a leap year). -/
def yearOfDayOffset (d : Nat) : Nat :=
  if d < 365 then 2019
  else if d < 731 then 2020
  else if d < 1096 then 2021
  else if d < 1461 then 2022
  else 2023

/-- `estimateur_demo.py` lines 23-53 / `estimateur_demo_streamlit.py`
lines 26-53, `generer_donnees_demo`: seeds numpy with the constant 42,
draws 150 day offsets in [0, 1825), builds a price per square meter
from the resulting year plus a normal draw, a surface from a uniform
draw, and returns the 150-row table. The `code_insee` argument is not
read by any of this (in `estimateur_demo.py` it only appears in a
progress message). -/
def genererDonneesDemo (rng : NumpyRandom) (_codeInsee : String) : List Row :=
  let seed := 42
  (List.range 150).map (fun i =>
    let d := rng.randint seed 0 1825 i
    let annee := yearOfDayOffset d
    let prixM2Base : ℚ := 2000 + ((annee : ℚ) - 2019) * 100
    let prix := prixM2Base + rng.normal seed 0 200 i
    let surface := rng.uniform seed 30 150 i
    ⟨annee, prix * surface, surface⟩)

/-- A row of the caller's frame with the slots for the derived columns
`analyser_marche` assigns: `prix_m2` and `annee` are absent before the
call. -/
structure FrameRow where
  anneeMutation : Nat
  valeurFonciere : ℚ
  surfaceReelleBati : ℚ
  prixM2Col : Option ℚ
  anneeCol : Option Nat
  deriving DecidableEq, Repr

/-- In-place effect of `analyser_marche` (`estimateur_demo.py` lines 61
and 67) on the caller's frame: `df['prix_m2'] = df['valeur_fonciere'] /
df['surface_reelle_bati']` and `df['annee'] =
df['date_mutation'].dt.year` assign two new columns on the very object
the caller passed in. -/
def analyserMarcheFrameEffect (rows : List FrameRow) : List FrameRow :=
  rows.map (fun r =>
    { r with
      prixM2Col := some (r.valeurFonciere / r.surfaceReelleBati)
      anneeCol := some r.anneeMutation })

/-- The fields of a frame row that existed before the call. -/
def originalFields (r : FrameRow) : Nat × ℚ × ℚ :=
  (r.anneeMutation, r.valeurFonciere, r.surfaceReelleBati)

section Basic

theorem listMin_le_of_mem : ∀ {l : List ℚ} {x : ℚ}, x ∈ l → listMin l ≤ x := by
  have key : ∀ (l : List ℚ) (a : ℚ), l.foldl min a ≤ a ∧ ∀ x ∈ l, l.foldl min a ≤ x := by
    intro l
    induction l with
    | nil => intro a; exact ⟨le_refl a, by simp⟩
    | cons b t ih =>
      intro a
      refine ⟨?_, ?_⟩
      · exact le_trans (ih (min a b)).1 (min_le_left a b)
      · intro x hx
        rcases List.mem_cons.mp hx with h | h
        · subst h
          exact le_trans (ih (min a x)).1 (min_le_right a x)
        · exact (ih (min a b)).2 x h
  intro l x hx
  cases l with
  | nil => cases hx
  | cons a t =>
    rcases List.mem_cons.mp hx with h | h
    · subst h; exact (key t x).1
    · exact (key t a).2 x h

theorem le_listMax_of_mem : ∀ {l : List ℚ} {x : ℚ}, x ∈ l → x ≤ listMax l := by
  have key : ∀ (l : List ℚ) (a : ℚ), a ≤ l.foldl max a ∧ ∀ x ∈ l, x ≤ l.foldl max a := by
    intro l
    induction l with
    | nil => intro a; exact ⟨le_refl a, by simp⟩
    | cons b t ih =>
      intro a
      refine ⟨?_, ?_⟩
      · exact le_trans (le_max_left a b) (ih (max a b)).1
      · intro x hx
        rcases List.mem_cons.mp hx with h | h
        · subst h
          exact le_trans (le_max_right a x) (ih (max a x)).1
        · exact (ih (max a b)).2 x h
  intro l x hx
  cases l with
  | nil => cases hx
  | cons a t =>
    rcases List.mem_cons.mp hx with h | h
    · subst h; exact (key t x).1
    · exact (key t a).2 x h

theorem listMin_mem {l : List ℚ} (h : l ≠ []) : listMin l ∈ l := by
  have key : ∀ (t : List ℚ) (a : ℚ), t.foldl min a = a ∨ t.foldl min a ∈ t := by
    intro t
    induction t with
    | nil => intro a; exact Or.inl rfl
    | cons b t ih =>
      intro a
      simp only [List.foldl_cons]
      rcases ih (min a b) with h1 | h1
      · rcases min_choice a b with h2 | h2
        · exact Or.inl (h1.trans h2)
        · exact Or.inr (by rw [h1, h2]; exact List.mem_cons_self b t)
      · exact Or.inr (List.mem_cons_of_mem b h1)
  cases l with
  | nil => exact absurd rfl h
  | cons a t =>
    rcases key t a with h1 | h1
    · rw [listMin, h1]; exact List.mem_cons_self a t
    · exact List.mem_cons_of_mem a h1

theorem listMax_mem {l : List ℚ} (h : l ≠ []) : listMax l ∈ l := by
  have key : ∀ (t : List ℚ) (a : ℚ), t.foldl max a = a ∨ t.foldl max a ∈ t := by
    intro t
    induction t with
    | nil => intro a; exact Or.inl rfl
    | cons b t ih =>
      intro a
      simp only [List.foldl_cons]
      rcases ih (max a b) with h1 | h1
      · rcases max_choice a b with h2 | h2
        · exact Or.inl (h1.trans h2)
        · exact Or.inr (by rw [h1, h2]; exact List.mem_cons_self b t)
      · exact Or.inr (List.mem_cons_of_mem b h1)
  cases l with
  | nil => exact absurd rfl h
  | cons a t =>
    rcases key t a with h1 | h1
    · rw [listMax, h1]; exact List.mem_cons_self a t
    · exact List.mem_cons_of_mem a h1

theorem mul_le_listSum {l : List ℚ} {c : ℚ} (h : ∀ x ∈ l, c ≤ x) :
    (l.length : ℚ) * c ≤ listSum l := by
  induction l with
  | nil => simp [listSum]
  | cons a t ih =>
    have ha : c ≤ a := h a (List.mem_cons_self a t)
    have ht : (t.length : ℚ) * c ≤ listSum t :=
      ih fun x hx => h x (List.mem_cons_of_mem a hx)
    simp only [listSum, List.length_cons]
    push_cast
    linarith

theorem listSum_le_mul {l : List ℚ} {c : ℚ} (h : ∀ x ∈ l, x ≤ c) :
    listSum l ≤ (l.length : ℚ) * c := by
  induction l with
  | nil => simp [listSum]
  | cons a t ih =>
    have ha : a ≤ c := h a (List.mem_cons_self a t)
    have ht : listSum t ≤ (t.length : ℚ) * c :=
      ih fun x hx => h x (List.mem_cons_of_mem a hx)
    simp only [listSum, List.length_cons]
    push_cast
    linarith

theorem listMin_le_listMean {l : List ℚ} (h : l ≠ []) :
    listMin l ≤ listMean l := by
  have hn : 0 < l.length := List.length_pos.mpr h
  have hnq : (0 : ℚ) < l.length := by exact_mod_cast hn
  have hsum : (l.length : ℚ) * listMin l ≤ listSum l :=
    mul_le_listSum fun x hx => listMin_le_of_mem hx
  rw [listMean, le_div_iff₀ hnq]
  linarith [hsum]

theorem listMean_le_listMax {l : List ℚ} (h : l ≠ []) :
    listMean l ≤ listMax l := by
  have hn : 0 < l.length := List.length_pos.mpr h
  have hnq : (0 : ℚ) < l.length := by exact_mod_cast hn
  have hsum : listSum l ≤ (l.length : ℚ) * listMax l :=
    listSum_le_mul fun x hx => le_listMax_of_mem hx
  rw [listMean, div_le_iff₀ hnq]
  linarith [hsum]

theorem mem_of_sortAsc {l : List ℚ} {x : ℚ} (hx : x ∈ sortAsc l) : x ∈ l :=
  (List.perm_insertionSort (· ≤ ·) l).mem_iff.mp hx

theorem sortAsc_length (l : List ℚ) : (sortAsc l).length = l.length :=
  (List.perm_insertionSort (· ≤ ·) l).length_eq

theorem getD_mem_of_lt {l : List ℚ} {i : Nat} (h : i < l.length) (d : ℚ) :
    l.getD i d ∈ l := by
  rw [List.getD_eq_getElem l d h]
  exact List.getElem_mem h

theorem listMedian_mem_bounds {l : List ℚ} (h : l ≠ []) :
    listMin l ≤ listMedian l ∧ listMedian l ≤ listMax l := by
  have hn : 0 < l.length := List.length_pos.mpr h
  have hs : 0 < (sortAsc l).length := by rw [sortAsc_length]; exact hn
  rw [listMedian]
  by_cases hodd : (sortAsc l).length % 2 = 1
  · simp only [hodd, if_pos rfl]
    have hi : (sortAsc l).length / 2 < (sortAsc l).length := Nat.div_lt_self hs (by norm_num)
    have hmem : (sortAsc l).getD ((sortAsc l).length / 2) 0 ∈ l :=
      mem_of_sortAsc (getD_mem_of_lt hi 0)
    exact ⟨listMin_le_of_mem hmem, le_listMax_of_mem hmem⟩
  · rw [if_neg hodd]
    have hi2 : (sortAsc l).length / 2 < (sortAsc l).length := Nat.div_lt_self hs (by norm_num)
    have hi1 : (sortAsc l).length / 2 - 1 < (sortAsc l).length :=
      lt_of_le_of_lt (Nat.sub_le _ 1) hi2
    have hmem1 : (sortAsc l).getD ((sortAsc l).length / 2 - 1) 0 ∈ l :=
      mem_of_sortAsc (getD_mem_of_lt hi1 0)
    have hmem2 : (sortAsc l).getD ((sortAsc l).length / 2) 0 ∈ l :=
      mem_of_sortAsc (getD_mem_of_lt hi2 0)
    have h1l := listMin_le_of_mem hmem1
    have h2l := listMin_le_of_mem hmem2
    have h1u := le_listMax_of_mem hmem1
    have h2u := le_listMax_of_mem hmem2
    constructor
    · linarith
    · linarith

theorem listSum_const {l : List ℚ} {c : ℚ} (h : ∀ x ∈ l, x = c) :
    listSum l = (l.length : ℚ) * c := by
  induction l with
  | nil => simp [listSum]
  | cons a t ih =>
    have ha : a = c := h a (List.mem_cons_self a t)
    have ht : listSum t = (t.length : ℚ) * c :=
      ih fun x hx => h x (List.mem_cons_of_mem a hx)
    simp only [listSum, List.length_cons, ha, ht]
    push_cast
    ring

theorem listMean_const {l : List ℚ} {c : ℚ} (hne : l ≠ []) (h : ∀ x ∈ l, x = c) :
    listMean l = c := by
  have hn : 0 < l.length := List.length_pos.mpr hne
  have hnq : (l.length : ℚ) ≠ 0 := by
    exact_mod_cast Nat.pos_iff_ne_zero.mp hn
  rw [listMean, listSum_const h, mul_comm, mul_div_assoc, div_self hnq, mul_one]

theorem ratFloor_eq (p : ℚ) (z : ℤ) (h1 : (z : ℚ) ≤ p) (h2 : p < z + 1) :
    p.floor = z := by
  show ⌊p⌋ = z
  rw [Int.floor_eq_iff]
  exact ⟨h1, h2⟩

theorem quantile_singleton (x q : ℚ) : quantile [x] q = x := by
  have h0 : (0 : ℚ).floor = 0 := ratFloor_eq 0 0 (by norm_num) (by norm_num)
  have hs : sortAsc [x] = [x] := rfl
  simp only [quantile, hs, List.length_singleton]
  norm_num [h0]

theorem quantile_pair_low : quantile [1000, 2000] (1 / 20) = 1050 := by
  have hs : sortAsc [1000, 2000] = [1000, 2000] := rfl
  have hpos : (1 / 20 : ℚ) * ((([1000, 2000] : List ℚ).length : ℚ) - 1) = 1 / 20 := by
    norm_num
  simp only [quantile, hs]
  rw [hpos, ratFloor_eq (1 / 20) 0 (by norm_num) (by norm_num)]
  norm_num

theorem quantile_pair_high : quantile [1000, 2000] (19 / 20) = 1950 := by
  have hs : sortAsc [1000, 2000] = [1000, 2000] := rfl
  have hpos : (19 / 20 : ℚ) * ((([1000, 2000] : List ℚ).length : ℚ) - 1) = 19 / 20 := by
    norm_num
  simp only [quantile, hs]
  rw [hpos, ratFloor_eq (19 / 20) 0 (by norm_num) (by norm_num)]
  norm_num

theorem trimmed_singleton (x : ℚ) : trimmed [x] = [x] := by
  simp only [trimmed, quantile_singleton]
  simp [List.filter]

theorem trimmedRows_singleton (r : Row) : trimmedRows [r] = [r] := by
  have hser : prixM2Series [r] = [prixM2 r] := rfl
  simp only [trimmedRows, hser, quantile_singleton]
  simp [List.filter]

theorem trimmedRows_length_le (rows : List Row) :
    (trimmedRows rows).length ≤ rows.length := by
  simp only [trimmedRows]
  exact List.length_filter_le _ _

theorem distinctYears_length_le (rows : List Row) :
    (distinctYears rows).length ≤ rows.length := by
  calc (distinctYears rows).length ≤ (rows.map Row.annee).length :=
        (List.dedup_sublist _).length_le
    _ = rows.length := List.length_map _ _

theorem evolution_length (rows : List Row) :
    (evolution rows).length = (distinctYears rows).length := by
  rw [evolution, List.length_map,
    (List.perm_insertionSort (· ≤ ·) (distinctYears rows)).length_eq]

theorem evolution_years_sorted (rows : List Row) :
    ((evolution rows).map Prod.fst).Sorted (· < ·) := by
  have hmap : (evolution rows).map Prod.fst
      = (distinctYears rows).insertionSort (· ≤ ·) := by
    rw [evolution, List.map_map]
    exact List.map_id _
  rw [hmap]
  have hle : ((distinctYears rows).insertionSort (· ≤ ·)).Sorted (· ≤ ·) :=
    List.sorted_insertionSort (· ≤ ·) (distinctYears rows)
  have hnodup : ((distinctYears rows).insertionSort (· ≤ ·)).Nodup :=
    ((List.perm_insertionSort (· ≤ ·) (distinctYears rows)).nodup_iff).mpr
      (List.nodup_dedup _)
  exact List.Pairwise.imp₂ (fun a b hab hne => lt_of_le_of_ne hab hne) hle hnodup

end Basic

section Claims

/-- C1 counterexample: `analyser_marche` returns the plain numeric 0 on
an empty table (both the demo version and the first component of the
streamlit version), and the same 0 on a non-empty table whose computed
mean price is genuinely zero — the two cases are not distinguishable
from the returned number, so no NoData marker distinct from 0 exists. -/
theorem C1_counterexample :
    analyserMarcheDemo [] = 0 ∧
    (analyserMarcheStreamlit []).1 = 0 ∧
    analyserMarcheDemo [⟨2020, 0, 50⟩] = 0 := by
  refine ⟨rfl, rfl, ?_⟩
  norm_num [analyserMarcheDemo, prixM2Series, prixM2, listMean, listSum]

/-- C1 (amended): on an empty input, and equally on a non-empty input
whose every record has price 0, `analyser_marche` returns the plain
numeric 0.0; the caller uses comparison with 0 (or a pre-call emptiness
check) as the no-data test, so "no data" and "computed price is zero"
are conflated in one numeric value. -/
theorem C1_noData_returns_zero (rows : List Row)
    (h : rows = [] ∨ ∀ r ∈ rows, r.valeur = 0) :
    analyserMarcheDemo rows = 0 := by
  rcases h with h | h
  · simp [analyserMarcheDemo, h]
  · rw [analyserMarcheDemo]
    split
    · rfl
    · next hne =>
      refine listMean_const ?_ ?_
      · simpa [prixM2Series] using hne
      · intro x hx
        rcases List.mem_map.mp hx with ⟨r, hr, hrx⟩
        rw [← hrx, prixM2, h r hr, zero_div]

/-- C1 witness: the amended statement at the one-record table with
price 0. -/
theorem C1_noData_returns_zero_witness :
    analyserMarcheDemo [⟨2021, 0, 60⟩] = 0 :=
  C1_noData_returns_zero [⟨2021, 0, 60⟩] (Or.inr (by decide))

/-- C2: the valuation step computes `prix_ajuste_m2 = prix_moyen_m2 *
coefficient` with the coefficients 0.85 / 1.0 / 1.20, then
`estimation_finale = prix_ajuste_m2 * surface`, and the reported band
is `[estimation_finale * 0.95, estimation_finale * 1.05]`; on any
non-empty table whose every record has price per area 2000, a subject
property of 75 m² in Standard condition is valued at 150000 with band
[142500, 157500]. -/
theorem C2_valuation (m a : ℚ) (c : Standing) (rows : List Row)
    (hne : rows ≠ []) (h2000 : ∀ r ∈ rows, prixM2 r = 2000) :
    prixAjusteM2 m c = m * ajustement c ∧
    estimationFinale m c a = m * ajustement c * a ∧
    ajustement Standing.aRenover = 85 / 100 ∧
    ajustement Standing.standard = 1 ∧
    ajustement Standing.hautDeGamme = 120 / 100 ∧
    fourchetteBasse (estimationFinale m c a) = estimationFinale m c a * (95 / 100) ∧
    fourchetteHaute (estimationFinale m c a) = estimationFinale m c a * (105 / 100) ∧
    estimationFinale (analyserMarcheDemo rows) Standing.standard 75 = 150000 ∧
    fourchetteBasse (estimationFinale (analyserMarcheDemo rows) Standing.standard 75)
      = 142500 ∧
    fourchetteHaute (estimationFinale (analyserMarcheDemo rows) Standing.standard 75)
      = 157500 := by
  have hmean : analyserMarcheDemo rows = 2000 := by
    rw [analyserMarcheDemo, if_neg hne]
    refine listMean_const ?_ ?_
    · simpa [prixM2Series] using hne
    · intro x hx
      rcases List.mem_map.mp hx with ⟨r, hr, hrx⟩
      rw [← hrx]
      exact h2000 r hr
  refine ⟨rfl, rfl, rfl, rfl, rfl, rfl, rfl, ?_, ?_, ?_⟩
  · rw [hmean]
    norm_num [estimationFinale, prixAjusteM2, ajustement]
  · rw [hmean]
    norm_num [fourchetteBasse, estimationFinale, prixAjusteM2, ajustement]
  · rw [hmean]
    norm_num [fourchetteHaute, estimationFinale, prixAjusteM2, ajustement]

/-- C2 witness: the scenario at the concrete one-record table with
value 100000 over 50 m² (price per area 2000). -/
theorem C2_valuation_witness :
    estimationFinale (analyserMarcheDemo [⟨2020, 100000, 50⟩]) Standing.standard 75
      = 150000 :=
  (C2_valuation 1 1 Standing.standard [⟨2020, 100000, 50⟩]
    (by simp)
    (by
      intro r hr
      simp only [List.mem_singleton] at hr
      subst hr
      norm_num [prixM2])).2.2.2.2.2.2.2.1

/-- C3: evaluating the trim of `analyser_marche`
(`estimateur_immobilier_streamlit.py` lines 77-79) at the two-value
price series [1000, 2000]: the [5th, 95th] percentile band is
[1050, 1950], so trimming leaves the empty set — fewer than 2 records —
and the code has no fallback to the untrimmed set (the statistics of
lines 82-95 are taken over this empty trimmed set). -/
theorem C3_trimming_leaves_empty :
    trimmed [1000, 2000] = [] ∧
    (trimmed [1000, 2000]).length < 2 ∧
    ([1000, 2000] : List ℚ) ≠ [] := by
  have htrim : trimmed [1000, 2000] = [] := by
    rw [trimmed, quantile_pair_low, quantile_pair_high]
    norm_num [List.filter]
  exact ⟨htrim, by rw [htrim]; norm_num, by simp⟩

/-- C4 counterexample: on a table whose records all fall in the year
2020 (a single distinct year), the demo calculator
(`estimateur_demo.py` lines 86-88) still fits a trend — `np.polyfit`
is executed unconditionally, so the trend line is not omitted. -/
theorem C4_counterexample :
    (distinctYears [⟨2020, 100000, 50⟩, ⟨2020, 120000, 60⟩]).length = 1 ∧
    demoTrendFitted [⟨2020, 100000, 50⟩, ⟨2020, 120000, 60⟩] = true := by
  decide

/-- C4 (amended): in `estimateur_immobilier_streamlit.py` the trend
line is fitted only under the guard `len(evolution) > 1`, so an input
whose (trimmed) records span fewer than 2 distinct calendar years gets
no fitted trend and no error; in `estimateur_demo.py` the fit is
unconditional and a slope is produced even from a single year. -/
theorem C4_streamlit_trend_omitted (rows : List Row)
    (h : (distinctYears (trimmedRows rows)).length < 2) :
    streamlitTrendFitted rows = false := by
  rw [streamlitTrendFitted]
  simp only [decide_eq_false_iff_not, not_lt]
  rw [evolution_length]
  omega

/-- C4 witness: the amended statement at a one-record table. -/
theorem C4_streamlit_trend_omitted_witness :
    streamlitTrendFitted [⟨2020, 100000, 50⟩] = false :=
  C4_streamlit_trend_omitted [⟨2020, 100000, 50⟩]
    (by
      have h1 := distinctYears_length_le (trimmedRows [⟨2020, 100000, 50⟩])
      have h2 := trimmedRows_length_le [⟨2020, 100000, 50⟩]
      simp only [List.length_singleton] at h2
      omega)

/-- C5: for a non-empty input of positive-area records, the statistics
the streamlit calculator computes (over its trimmed set, when that set
is non-empty) satisfy min ≤ mean ≤ max and min ≤ median ≤ max, and the
same inequalities hold for the untrimmed statistics of the demo
calculator. -/
theorem C5_stats_bounds (rows : List Row) (s : MarketStats)
    (_hpos : ∀ r ∈ rows, 0 < r.surface)
    (hs : (analyserMarcheStreamlit rows).2 = some s)
    (hne : trimmedRows rows ≠ []) :
    (s.min ≤ s.moyen ∧ s.moyen ≤ s.max ∧
      s.min ≤ s.mediane ∧ s.mediane ≤ s.max) ∧
    (rows ≠ [] →
      listMin (prixM2Series rows) ≤ analyserMarcheDemo rows ∧
      analyserMarcheDemo rows ≤ listMax (prixM2Series rows) ∧
      listMin (prixM2Series rows) ≤ listMedian (prixM2Series rows) ∧
      listMedian (prixM2Series rows) ≤ listMax (prixM2Series rows)) := by
  constructor
  · have hrows : rows ≠ [] := by
      intro h0
      rw [h0] at hs
      simp [analyserMarcheStreamlit] at hs
    have hclean : prixM2Series (trimmedRows rows) ≠ [] := by
      simpa [prixM2Series] using hne
    simp only [analyserMarcheStreamlit, if_neg hrows] at hs
    have hseq := Option.some.inj hs
    rw [← hseq]
    refine ⟨listMin_le_listMean hclean, listMean_le_listMax hclean, ?_, ?_⟩
    · exact (listMedian_mem_bounds hclean).1
    · exact (listMedian_mem_bounds hclean).2
  · intro hrows
    have hser : prixM2Series rows ≠ [] := by
      simpa [prixM2Series] using hrows
    rw [analyserMarcheDemo, if_neg hrows]
    refine ⟨listMin_le_listMean hser, listMean_le_listMax hser, ?_, ?_⟩
    · exact (listMedian_mem_bounds hser).1
    · exact (listMedian_mem_bounds hser).2

/-- C5 witness: the statement at a concrete one-record table. -/
theorem C5_stats_bounds_witness :
    listMin (prixM2Series [⟨2020, 2000, 1⟩]) ≤ analyserMarcheDemo [⟨2020, 2000, 1⟩] ∧
    analyserMarcheDemo [⟨2020, 2000, 1⟩] ≤ listMax (prixM2Series [⟨2020, 2000, 1⟩]) ∧
    listMin (prixM2Series [⟨2020, 2000, 1⟩]) ≤ listMedian (prixM2Series [⟨2020, 2000, 1⟩]) ∧
    listMedian (prixM2Series [⟨2020, 2000, 1⟩]) ≤ listMax (prixM2Series [⟨2020, 2000, 1⟩]) :=
  (C5_stats_bounds [⟨2020, 2000, 1⟩]
      ⟨listMin (prixM2Series (trimmedRows [⟨2020, 2000, 1⟩])),
        listMax (prixM2Series (trimmedRows [⟨2020, 2000, 1⟩])),
        listMean (prixM2Series (trimmedRows [⟨2020, 2000, 1⟩])),
        listMedian (prixM2Series (trimmedRows [⟨2020, 2000, 1⟩])),
        (prixM2Series (trimmedRows [⟨2020, 2000, 1⟩])).length⟩
      (by
        intro r hr
        simp only [List.mem_singleton] at hr
        subst hr
        norm_num)
      rfl
      (by rw [trimmedRows_singleton]; simp)).2 (by simp)

/-- C6: the [5th, 95th] percentile trim never widens the price range:
whenever the trimmed series is non-empty, its minimum is at least the
untrimmed minimum and its maximum is at most the untrimmed maximum. -/
theorem C6_trim_range_contained (l : List ℚ) (h : trimmed l ≠ []) :
    listMin l ≤ listMin (trimmed l) ∧ listMax (trimmed l) ≤ listMax l := by
  have hsub : ∀ x ∈ trimmed l, x ∈ l := by
    intro x hx
    simp only [trimmed] at hx
    exact List.mem_of_mem_filter hx
  constructor
  · exact listMin_le_of_mem (hsub _ (listMin_mem h))
  · exact le_listMax_of_mem (hsub _ (listMax_mem h))

/-- C6 witness: the statement at a singleton series, whose trim keeps
its one value. -/
theorem C6_trim_range_contained_witness :
    listMin ([1500] : List ℚ) ≤ listMin (trimmed [1500]) ∧
    listMax (trimmed ([1500] : List ℚ)) ≤ listMax [1500] :=
  C6_trim_range_contained [1500] (by rw [trimmed_singleton]; simp)

/-- C7: the trend sequence — mean price per area grouped by distinct
calendar year, then sorted by year — has exactly one entry per distinct
year present and its years are strictly ascending. -/
theorem C7_evolution (rows : List Row) (N : Nat)
    (hN : (distinctYears rows).length = N) (_hpos : 1 ≤ N) :
    (evolution rows).length = N ∧
    ((evolution rows).map Prod.fst).Sorted (· < ·) :=
  ⟨by rw [evolution_length, hN], evolution_years_sorted rows⟩

/-- C7 witness: the statement at a two-year table. -/
theorem C7_evolution_witness :
    (evolution [⟨2020, 100000, 50⟩, ⟨2021, 120000, 60⟩]).length = 2 ∧
    ((evolution [⟨2020, 100000, 50⟩, ⟨2021, 120000, 60⟩]).map Prod.fst).Sorted (· < ·) :=
  C7_evolution [⟨2020, 100000, 50⟩, ⟨2021, 120000, 60⟩] 2 (by decide) (by decide)

/-- When `recuperer_transactions_dvf` returns an empty table, it always
attaches a reason string. -/
theorem recuperer_empty_has_reason (o : FetchOutcome)
    (h : (recupererTransactionsDvf o).1 = []) :
    ∃ msg, (recupererTransactionsDvf o).2 = some msg := by
  cases o with
  | httpError code => exact ⟨_, rfl⟩
  | failure msg => exact ⟨_, rfl⟩
  | success raw =>
    by_cases h1 : (raw.filter (fun r =>
        r.natureMutation == "Vente" &&
          (r.typeLocal == "Maison" || r.typeLocal == "Appartement"))).isEmpty
    · exact ⟨"Aucune transaction trouvée pour cette commune",
        by simp [recupererTransactionsDvf, h1]⟩
    · by_cases h2 : ((raw.filter (fun r =>
          r.natureMutation == "Vente" &&
            (r.typeLocal == "Maison" || r.typeLocal == "Appartement"))).filterMap
              parseRow).isEmpty
      · exact ⟨"Données incomplètes pour cette commune",
          by simp [recupererTransactionsDvf, h1, h2]⟩
      · exfalso
        have hfst : (recupererTransactionsDvf (.success raw)).1 =
            (raw.filter (fun r =>
              r.natureMutation == "Vente" &&
                (r.typeLocal == "Maison" || r.typeLocal == "Appartement"))).filterMap
                  parseRow := by
          simp [recupererTransactionsDvf, h1, h2]
        rw [hfst] at h
        rw [h] at h2
        simp at h2

/-- C8: every failing fetch (non-200 status, exception, or no usable
rows after filtering) yields an empty table together with a
human-readable reason, and the streamlit workflow then reports exactly
that reason and produces no valuation; in particular an HTTP 404
produces the reason "API non disponible (code 404)". -/
theorem C8_fetch_failure (o : FetchOutcome) (surface : ℚ) (s : Standing)
    (hfail : (recupererTransactionsDvf o).1 = []) :
    (∃ msg, (recupererTransactionsDvf o).2 = some msg ∧
      mainStreamlit o surface s = WorkflowResult.errorReport msg) ∧
    recupererTransactionsDvf (FetchOutcome.httpError 404) =
      ([], some "API non disponible (code 404)") := by
  constructor
  · obtain ⟨msg, hmsg⟩ := recuperer_empty_has_reason o hfail
    refine ⟨msg, hmsg, ?_⟩
    simp [mainStreamlit, hfail, hmsg]
  · rfl

/-- C8 witness: the statement at the HTTP 404 outcome. -/
theorem C8_fetch_failure_witness :
    (∃ msg, (recupererTransactionsDvf (FetchOutcome.httpError 404)).2 = some msg ∧
      mainStreamlit (FetchOutcome.httpError 404) 75 Standing.standard =
        WorkflowResult.errorReport msg) ∧
    recupererTransactionsDvf (FetchOutcome.httpError 404) =
      ([], some "API non disponible (code 404)") :=
  C8_fetch_failure (FetchOutcome.httpError 404) 75 Standing.standard rfl

/-- C9 counterexample: `analyser_marche` does not leave its input
unchanged — the caller's frame acquires derived columns (`prix_m2`,
`annee`) assigned in place, so a frame without those columns differs
from its post-call state. -/
theorem C9_counterexample :
    analyserMarcheFrameEffect [⟨2020, 100000, 50, none, none⟩] ≠
      [⟨2020, 100000, 50, none, none⟩] := by decide

/-- C9 (amended): the statistics computation is deterministic but not
effect-free: it assigns the derived columns `prix_m2 =
valeur_fonciere / surface_reelle_bati` and `annee` on the caller's
frame in place (and the demo version renders and saves a chart
itself); the pre-existing fields of every record are left unchanged. -/
theorem C9_frame_mutation (rows : List FrameRow) :
    (analyserMarcheFrameEffect rows).map originalFields = rows.map originalFields ∧
    ∀ r ∈ analyserMarcheFrameEffect rows,
      r.prixM2Col = some (r.valeurFonciere / r.surfaceReelleBati) ∧
      r.anneeCol = some r.anneeMutation := by
  constructor
  · rw [analyserMarcheFrameEffect, List.map_map]
    rfl
  · intro r hr
    rcases List.mem_map.mp hr with ⟨r0, _, hr0⟩
    rw [← hr0]
    exact ⟨rfl, rfl⟩

/-- C9 witness: the amended statement at a concrete one-row frame. -/
theorem C9_frame_mutation_witness :
    (⟨2020, 100000, 50, some 2000, some 2020⟩ : FrameRow).prixM2Col =
      some ((⟨2020, 100000, 50, some 2000, some 2020⟩ : FrameRow).valeurFonciere /
        (⟨2020, 100000, 50, some 2000, some 2020⟩ : FrameRow).surfaceReelleBati) ∧
    (⟨2020, 100000, 50, some 2000, some 2020⟩ : FrameRow).anneeCol =
      some (⟨2020, 100000, 50, some 2000, some 2020⟩ : FrameRow).anneeMutation :=
  (C9_frame_mutation [⟨2020, 100000, 50, none, none⟩]).2
    ⟨2020, 100000, 50, some 2000, some 2020⟩
    (by norm_num [analyserMarcheFrameEffect])

/-- C10: the demo data generator is deterministic and ignores its
municipality-code argument — the random seed is fixed at 42, so for any
abstract numpy random source and any two codes the generated tables are
identical, with exactly 150 rows. -/
theorem C10_generer_independent (rng : NumpyRandom) (c1 c2 : String) :
    genererDonneesDemo rng c1 = genererDonneesDemo rng c2 ∧
    (genererDonneesDemo rng c1).length = 150 := by
  refine ⟨rfl, ?_⟩
  simp [genererDonneesDemo]

end Claims

end SimImmo
